import Mathlib

/-!
Verification development for the bulebule micromouse firmware.

The development shallowly embeds the three subsystems the design document
singles out:

* the quadrature-encoder distance tracker (its timer configuration is in
  `configure_timer_as_quadrature_encoder`; the polling tracker itself is not
  part of the sources and is modelled from the spec, section 4.2);
* the 4-channel injected-ADC sampling pipeline (`setup_adc`, `adc1_2_isr`,
  the `sensor_1 .. sensor_4` shared cells, and the logical sensor indices of
  `detection.h`);
* the calibration sequencer (`calibration.c`), embedded as deterministic
  state-transformers over an explicit foreground state.  External
  collaborators that are only declared, not defined, in the sources
  (`each`, `sleep_ticks`, the motion controller accessors) are modelled
  from the spec's interface contracts (sections 4.3 and 6).

Machine integers are embedded as `Nat`/`Int` with explicit `% 2 ^ 16`
where the 16-bit counters wrap; the firmware's `float` target speeds are
embedded as `ℚ` values (and, where π is involved, as `ℝ`).
-/

/-! ### Encoder counters (claim C2)

`configure_timer_as_quadrature_encoder` programs the auto-reload register
with `0xFFFF`, so the free-running counters count 0, 1, ..., 0xFFFF and wrap
modulo `2 ^ 16`.  The polling tracker is not under `src/`; it is modelled
from the spec (section 4.2). -/

/-- Auto-reload value written by `timer_set_period(timer_peripheral, 0xFFFF)`
in `configure_timer_as_quadrature_encoder`. -/
def quadrature_timer_period : Nat := 0xFFFF

/-- Modulus of the free-running encoder counters: a counter counts from 0 up
to the auto-reload value inclusive, hence wraps modulo `0xFFFF + 1`. -/
def encoderModulus : Nat := quadrature_timer_period + 1

/-- Modelled from the spec: the distance tracker's per-poll delta
`(raw_new - raw_old) mod 2 ^ 16` (section 4.2; the tracker's `poll()` is not
under `src/`, only the quadrature-timer configuration it relies on is).
The subtraction is the unsigned 16-bit one. -/
def pollDelta (rOld rNew : Nat) : Nat :=
  (rNew + encoderModulus - rOld) % encoderModulus

/-- Raw counter trace produced by true per-poll edge counts `t`, starting
from raw value `r0`: forward motion increases the counter, which wraps at
`encoderModulus`. -/
def rawCounter (r0 : Nat) (t : Nat → Nat) : Nat → Nat
  | 0 => r0 % encoderModulus
  | n + 1 => (rawCounter r0 t n + t n) % encoderModulus

/-- Modelled from the spec: the cumulative-distance accumulator after `n`
polls; every poll adds the per-poll delta scaled by the
micrometers-per-count constant `k` (section 4.2). -/
def cumulativeDistance (k r0 : Nat) (t : Nat → Nat) : Nat → Nat
  | 0 => 0
  | n + 1 =>
    cumulativeDistance k r0 t n +
      k * pollDelta (rawCounter r0 t n) (rawCounter r0 t (n + 1))

/-! ### Sensor sampling pipeline (claims C1 and C8)

`adc1_2_isr` in the setup source clears the JEOC flag and copies injected
conversion ranks 1..4 into the four shared volatile cells
`sensor_1 .. sensor_4`.  `detection.h` names the logical sensor indices
0..3.  The handler preempts the foreground atomically (it is an interrupt
on a single core), while the foreground's four field reads may be
interleaved with whole handler invocations. -/

/-- Logical sensor index `SENSOR_SIDE_LEFT` from `detection.h`. -/
def SENSOR_SIDE_LEFT : Nat := 0

/-- Logical sensor index `SENSOR_SIDE_RIGHT` from `detection.h`. -/
def SENSOR_SIDE_RIGHT : Nat := 1

/-- Logical sensor index `SENSOR_FRONT_LEFT` from `detection.h`. -/
def SENSOR_FRONT_LEFT : Nat := 2

/-- Logical sensor index `SENSOR_FRONT_RIGHT` from `detection.h`. -/
def SENSOR_FRONT_RIGHT : Nat := 3

/-- The four shared cells `sensor_1 .. sensor_4` (volatile `uint16_t`
globals in the setup source). -/
structure SensorCells where
  sensor_1 : Nat
  sensor_2 : Nat
  sensor_3 : Nat
  sensor_4 : Nat
  deriving DecidableEq

/-- The cell holding logical sensor `i`: the globals in declaration order,
so logical index `i` lives in `sensor_(i+1)`. -/
def SensorCells.cell (c : SensorCells) : Nat → Nat
  | 0 => c.sensor_1
  | 1 => c.sensor_2
  | 2 => c.sensor_3
  | _ => c.sensor_4

/-- The completion handler `adc1_2_isr`: it stores injected conversion rank
`r` (`adc_read_injected(ADC1, r)`, here `read r`) into `sensor_r`, for
`r = 1, 2, 3, 4`. -/
def adc1_2_isr (read : Nat → Nat) : SensorCells :=
  { sensor_1 := read 1
    sensor_2 := read 2
    sensor_3 := read 3
    sensor_4 := read 4 }

/-- State of the four shared cells after `k` completed handler invocations:
invocation `j` (0-based) publishes the four values of sweep `j`.  `init` is
the initial content of the cells (they are zero-initialized globals). -/
def cellsAfter (init : SensorCells) (sweep : Nat → Nat → Nat) : Nat → SensorCells
  | 0 => init
  | k + 1 => adc1_2_isr (sweep k)

/-- A foreground four-field read: `sched i` is the number of handler
invocations that have completed before field `i` is read.  The handler is
atomic with respect to the foreground, but further invocations may fire
between two of the foreground's reads. -/
def observedFrame (init : SensorCells) (sweep : Nat → Nat → Nat)
    (sched : Nat → Nat) : SensorCells :=
  { sensor_1 := (cellsAfter init sweep (sched 0)).sensor_1
    sensor_2 := (cellsAfter init sweep (sched 1)).sensor_2
    sensor_3 := (cellsAfter init sweep (sched 2)).sensor_3
    sensor_4 := (cellsAfter init sweep (sched 3)).sensor_4 }

/-- Zero-initialized cells, as for the `sensor_1 .. sensor_4` globals. -/
def initCells : SensorCells := ⟨0, 0, 0, 0⟩

/-- A concrete environment: sweep 0 converts values 11..14 and every later
sweep converts values 21..24. -/
def sweepEx : Nat → Nat → Nat
  | 0, i => 10 + i
  | _ + 1, i => 20 + i

/-- A concrete interleaving: one handler invocation completes before field 0
is read, and a second one fires before fields 1..3 are read. -/
def schedEx : Nat → Nat
  | 0 => 1
  | _ => 2

/-! ### HOLD-phase durations (claim C4)

`run_angular_speed_profile` and `run_static_turn_right_profile` both set
`target_angular_speed = 4 * PI` and pass `1000 * (3 * PI) / target_angular_speed`
resp. `1000 * (PI / 2.) / target_angular_speed` as the duration of the
HOLD-phase `each` call.  The float arithmetic is embedded as exact real
arithmetic (`PI` is defined outside `src/`; the claim's tolerance of one
10-tick sample interval absorbs any float rounding of these quotients). -/

/-- The local `target_angular_speed = 4 * PI` of both angular procedures. -/
noncomputable def profile_target_angular_speed : ℝ := 4 * Real.pi

/-- Duration argument of the HOLD-phase `each` call in
`run_angular_speed_profile`: `1000 * (3 * PI) / target_angular_speed`. -/
noncomputable def angular_hold_duration : ℝ :=
  1000 * (3 * Real.pi) / profile_target_angular_speed

/-- Duration argument of the HOLD-phase `each` call in
`run_static_turn_right_profile`: `1000 * (PI / 2.) / target_angular_speed`. -/
noncomputable def static_turn_hold_duration : ℝ :=
  1000 * (Real.pi / 2) / profile_target_angular_speed

/-! ### Calibration sequencer (claims C3, C5, C6, C7, C9, C10)

`calibration.c` is embedded as deterministic state-transformers over an
explicit foreground state `St`.  The state records the clock tick, the
control flags, the motion configuration, the current target speeds, and a
chronological event trace (every periodic-log invocation and every command
issued to the motion controller, the latter stamped with the control flags
in force when it was issued).  The collaborators that `calibration.c` calls
are only declared in the sources; each one is modelled from the spec's
interface contract (sections 4.3 and 6) as noted on its definition.
Target speeds (`float` in the firmware) are embedded as `ℚ`. -/

/-- Which periodic logger a log event came from. -/
inductive LogKind
  | linearSpeed
  | angularSpeed
  | frontSensors
  deriving DecidableEq

/-- One observable event of a calibration run.  Command and ramp events are
stamped with the tick and with the motor / side-sensors / front-sensors
control flags in force when they were issued. -/
inductive Ev
  | log (k : LogKind) (tick : Nat)
  | cmdAng (v : ℚ) (tick : Nat) (motor sideCtl frontCtl : Bool)
  | cmdLin (v : ℚ) (tick : Nat) (motor sideCtl frontCtl : Bool)
  | accelRamp (tick : Nat) (motor sideCtl frontCtl : Bool)
  | decelRamp (tick : Nat) (motor sideCtl frontCtl : Bool)
  deriving DecidableEq

/-- Foreground state seen by the calibration sequencer. -/
structure St where
  tick : Nat
  motor : Bool
  sideCtl : Bool
  frontCtl : Bool
  linAcc : ℚ
  linDec : ℚ
  maxLin : ℚ
  targetAng : ℚ
  targetLin : ℚ
  events : List Ev
  deriving DecidableEq

/-- Modelled from the spec: `disable_walls_control` turns every
distance/sensor-based safety override off (section 4.4 entry actions). -/
def disable_walls_control (s : St) : St :=
  { s with sideCtl := false, frontCtl := false }

/-- Modelled from the spec: `enable_motor_control` enables speed/position
control (section 4.4 entry actions). -/
def enable_motor_control (s : St) : St :=
  { s with motor := true }

/-- Modelled from the spec: `side_sensors_control(bool)` switches the
side-wall safety control on or off (section 6). -/
def side_sensors_control (b : Bool) (s : St) : St :=
  { s with sideCtl := b }

/-- Modelled from the spec: `front_sensors_control(bool)` switches the
front-wall safety control on or off (section 6). -/
def front_sensors_control (b : Bool) (s : St) : St :=
  { s with frontCtl := b }

/-- Modelled from the spec: `set_target_angular_speed(v)` commands the
motion controller; the command is recorded in the trace (section 6). -/
def set_target_angular_speed (v : ℚ) (s : St) : St :=
  { s with targetAng := v,
           events := s.events ++ [Ev.cmdAng v s.tick s.motor s.sideCtl s.frontCtl] }

/-- Modelled from the spec: `set_target_linear_speed(v)` commands the
motion controller; the command is recorded in the trace (section 6). -/
def set_target_linear_speed (v : ℚ) (s : St) : St :=
  { s with targetLin := v,
           events := s.events ++ [Ev.cmdLin v s.tick s.motor s.sideCtl s.frontCtl] }

/-- Modelled from the spec: `get_max_linear_speed()` (section 6). -/
def get_max_linear_speed (s : St) : ℚ := s.maxLin

/-- Modelled from the spec: `get_linear_acceleration()` (section 6). -/
def get_linear_acceleration (s : St) : ℚ := s.linAcc

/-- Modelled from the spec: `get_linear_deceleration()` (section 6). -/
def get_linear_deceleration (s : St) : ℚ := s.linDec

/-- Modelled from the spec: `set_linear_acceleration(v)` (section 6). -/
def set_linear_acceleration (v : ℚ) (s : St) : St :=
  { s with linAcc := v }

/-- Modelled from the spec: `set_linear_deceleration(v)` (section 6). -/
def set_linear_deceleration (v : ℚ) (s : St) : St :=
  { s with linDec := v }

/-- Modelled from the spec: `set_max_linear_speed(v)` (section 6). -/
def set_max_linear_speed (v : ℚ) (s : St) : St :=
  { s with maxLin := v }

/-- Modelled from the spec: `sleep_ticks(n)` blocks for `n` ticks
(section 6). -/
def sleep_ticks (n : Nat) (s : St) : St :=
  { s with tick := s.tick + n }

/-- Modelled from the spec: `reset_motion()` re-baselines the encoder
accumulators and resets the motion controller (sections 4.2 and 6); it
touches none of the fields tracked in `St`. -/
def reset_motion (s : St) : St := s

/-- Modelled from the spec: `reset_control_errors()` clears the internal
control error accumulators (section 6); no tracked field is affected. -/
def reset_control_errors (s : St) : St := s

/-- Modelled from the spec: `side_sensors_calibration()` recalibrates the
side sensors (section 6); no tracked field is affected. -/
def side_sensors_calibration (s : St) : St := s

/-- Modelled from the spec: the relative ticks at which `each(interval,
action, total)` invokes its action — once immediately, then after every
further `interval` ticks, while the elapsed time has not yet reached
`total` (section 4.3).  `fuel` bounds the recursion; with a positive
interval, `fuel = total` iterations always suffice. -/
def eachLogsAux (interval : Nat) : Nat → Nat → Nat → List Nat
  | 0, _, _ => []
  | _ + 1, 0, _ => []
  | fuel + 1, remaining + 1, t =>
    t :: eachLogsAux interval fuel (remaining + 1 - interval) (t + interval)

/-- Modelled from the spec: `each(interval_ticks, action, total_ticks)`
invokes `action` once immediately and then once every `interval_ticks`,
blocking the foreground until `total_ticks` have elapsed in total (the
final partial interval runs short); interrupt-driven sampling continues
underneath (section 4.3). -/
def each (interval total : Nat) (k : LogKind) (s : St) : St :=
  { s with tick := s.tick + total,
           events := s.events ++ (eachLogsAux interval total total s.tick).map (Ev.log k) }

/-- Modelled from the spec: the external `accelerate(start, distance)` ramp
helper (section 6).  It drives the motors; the model records the ramp with
the control flags in force.  Its duration and its distance argument are
irrelevant to every property proved here and are not tracked. -/
def accelerate (s : St) : St :=
  { s with events := s.events ++ [Ev.accelRamp s.tick s.motor s.sideCtl s.frontCtl] }

/-- Modelled from the spec: the external `decelerate(start, distance,
target)` ramp helper (section 6), recorded like `accelerate`. -/
def decelerate (s : St) : St :=
  { s with events := s.events ++ [Ev.decelRamp s.tick s.motor s.sideCtl s.frontCtl] }

/-- The travel loop of `run_linear_speed_profile`: while the exit condition
(evaluated on the current tick) is false, log once and sleep one tick.
`fuel` bounds the number of iterations of the C `while` loop. -/
def tickLogLoop (cond : Nat → Bool) (k : LogKind) : Nat → St → St
  | 0, s => s
  | fuel + 1, s =>
    if cond s.tick then s
    else
      tickLogLoop cond k fuel
        { s with tick := s.tick + 1, events := s.events ++ [Ev.log k s.tick] }

/-- The approach loop of `run_front_sensors_calibration`: while the exit
condition (evaluated on the poll index `n`; the loop body contains no wait)
is false, log once.  `fuel` bounds the number of iterations. -/
def pollLogLoop (cond : Nat → Bool) (k : LogKind) : Nat → Nat → St → St
  | 0, _, s => s
  | fuel + 1, n, s =>
    if cond n then s
    else
      pollLogLoop cond k fuel (n + 1)
        { s with events := s.events ++ [Ev.log k s.tick] }

/-- `run_linear_speed_profile` from `calibration.c`, line by line.  `enc`
gives `get_encoder_average_micrometers()` as a function of the tick at
which it is polled; `fuel` bounds the travel `while` loop. -/
def run_linear_speed_profile (enc : Nat → Int) (fuel : Nat) (s0 : St) : St :=
  let s := disable_walls_control s0
  let s := enable_motor_control s
  let s := each 10 1000 LogKind.linearSpeed s
  let s := set_target_angular_speed 0 s
  let s := set_target_linear_speed (get_max_linear_speed s) s
  let start := enc s.tick
  let s := tickLogLoop (fun tc => decide (500000 ≤ enc tc - start)) LogKind.linearSpeed fuel s
  let s := set_target_angular_speed 0 s
  let s := set_target_linear_speed 0 s
  let s := each 1 2000 LogKind.linearSpeed s
  reset_motion s

/-- `run_angular_speed_profile` from `calibration.c`, line by line.  `w` is
the firmware's float value of `4 * PI` (the value of `PI` is defined
outside `src/`) and `holdTicks` the integer tick count obtained from
`1000 * (3 * PI) / target_angular_speed` when it is passed to `each`; the
exact real value of that expression is 750 (see `hold_phase_durations`). -/
def run_angular_speed_profile (holdTicks : Nat) (w : ℚ) (s0 : St) : St :=
  let s := disable_walls_control s0
  let s := enable_motor_control s
  let s := each 10 1000 LogKind.angularSpeed s
  let s := set_target_angular_speed w s
  let s := set_target_linear_speed 0 s
  let s := each 10 holdTicks LogKind.angularSpeed s
  let s := set_target_angular_speed 0 s
  let s := set_target_linear_speed 0 s
  let s := each 10 2000 LogKind.angularSpeed s
  reset_motion s

/-- `run_static_turn_right_profile` from `calibration.c`, line by line.
`w` and `holdTicks` are as in `run_angular_speed_profile`, with the hold
duration `1000 * (PI / 2.) / target_angular_speed` (exact real value 125,
see `hold_phase_durations`). -/
def run_static_turn_right_profile (holdTicks : Nat) (w : ℚ) (s0 : St) : St :=
  let s := disable_walls_control s0
  let s := enable_motor_control s
  let s := each 10 1000 LogKind.angularSpeed s
  let s := set_target_angular_speed w s
  let s := set_target_linear_speed 0 s
  let s := each 10 holdTicks LogKind.angularSpeed s
  let s := set_target_angular_speed 0 s
  let s := set_target_linear_speed 0 s
  let s := each 10 200 LogKind.angularSpeed s
  reset_motion s

/-- `run_micrometers_per_count_calibration` from `calibration.c`, line by
line.  The `cells` argument only scales the `accelerate` distance, which
the model does not track. -/
def run_micrometers_per_count_calibration (_cells : Nat) (s0 : St) : St :=
  let linear_acceleration := get_linear_acceleration s0
  let linear_deceleration := get_linear_deceleration s0
  let max_linear_speed := get_max_linear_speed s0
  let s := set_linear_acceleration 4 s0
  let s := set_linear_deceleration 4 s
  let s := set_max_linear_speed (2 / 5) s
  let s := reset_motion s
  let s := side_sensors_calibration s
  let s := enable_motor_control s
  let s := side_sensors_control true s
  let s := front_sensors_control false s
  let s := accelerate s
  let s := disable_walls_control s
  let s := decelerate s
  let s := reset_control_errors s
  let s := set_linear_acceleration linear_acceleration s
  let s := set_linear_deceleration linear_deceleration s
  let s := set_max_linear_speed max_linear_speed s
  reset_motion s

/-- `run_front_sensors_calibration` from `calibration.c`, line by line.
`encStart` is the `get_encoder_average_micrometers()` reading used to form
`target_micrometers`; `encF n` is the reading of poll `n` of the approach
loop (the loop body contains no wait, so polls are indexed, not ticked);
`mts` is the value `required_micrometers_to_speed(0.)` returns; `off` is
the integer value of `1.3 * CELL_DIMENSION * MICROMETERS_PER_METER` (the
two constants are defined outside `src/`); `fuel` bounds the approach
`while` loop. -/
def run_front_sensors_calibration (encStart : Int) (encF : Nat → Int)
    (mts off : Int) (fuel : Nat) (s0 : St) : St :=
  let linear_acceleration := get_linear_acceleration s0
  let s := disable_walls_control s0
  let s := enable_motor_control s
  let s := set_linear_acceleration 4 s
  let target_micrometers := encStart + off
  let s := set_target_angular_speed 0 s
  let s := set_target_linear_speed (3 / 10) s
  let micrometers_to_stop := mts
  let s := pollLogLoop (fun n => decide (target_micrometers - micrometers_to_stop ≤ encF n))
    LogKind.frontSensors fuel 0 s
  let s := set_target_angular_speed 0 s
  let s := set_target_linear_speed 0 s
  let s := each 2 200 LogKind.frontSensors s
  let s := set_linear_acceleration linear_acceleration s
  reset_motion s

/-- The arithmetic-progression form of the `each` invocation ticks: with a
positive interval, `each(interval, action, total)` starting at tick `t`
invokes its action at `t, t + interval, t + 2·interval, ...`, once for every
multiple of `interval` below `total` — that is, `⌈total / interval⌉`
invocations. -/
def eachTicks (interval total t : Nat) : List Nat :=
  (List.range ((total + interval - 1) / interval)).map (fun j => t + j * interval)

/-- A concrete entry state for witnesses: tick 0, all controls off,
acceleration 1, deceleration 1, maximum linear speed 2, zero targets,
empty trace. -/
def stEx : St := ⟨0, false, false, false, 1, 1, 2, 0, 0, []⟩

/-- A concrete tick-indexed encoder trace: 250000 micrometers per tick. -/
def encEx : Nat → Int := fun t => 250000 * (t : Int)

/-- A concrete poll-indexed encoder trace: 100000 micrometers per poll. -/
def encFEx : Nat → Int := fun n => 100000 * (n : Int)

/-- Flag discipline of one trace event: any motion event (speed command or
ramp) was issued with motor control enabled and both wall-sensor safety
controls disabled; log events are unconstrained. -/
def cmdFlagsOk : Ev → Prop
  | Ev.log _ _ => True
  | Ev.cmdAng _ _ m sc fc => m = true ∧ sc = false ∧ fc = false
  | Ev.cmdLin _ _ m sc fc => m = true ∧ sc = false ∧ fc = false
  | Ev.accelRamp _ m sc fc => m = true ∧ sc = false ∧ fc = false
  | Ev.decelRamp _ m sc fc => m = true ∧ sc = false ∧ fc = false

/-- Lower bound on the tick of any nonzero speed command: a speed-command
event with nonzero value was issued no earlier than tick `lb`; all other
events are unconstrained. -/
def cmdAfter (lb : Nat) : Ev → Prop
  | Ev.cmdAng v t _ _ _ => v ≠ 0 → lb ≤ t
  | Ev.cmdLin v t _ _ _ => v ≠ 0 → lb ≤ t
  | _ => True

/-! ### Theorems -/

theorem rawCounter_lt (r0 : Nat) (t : Nat → Nat) (n : Nat) :
    rawCounter r0 t n < encoderModulus := by
  cases n <;> exact Nat.mod_lt _ (by decide)

theorem pollDelta_rawCounter (r0 : Nat) (t : Nat → Nat)
    (hw : ∀ n, t n < encoderModulus) (n : Nat) :
    pollDelta (rawCounter r0 t n) (rawCounter r0 t (n + 1)) = t n := by
  have ha : rawCounter r0 t n < encoderModulus := rawCounter_lt r0 t n
  have hb : t n < encoderModulus := hw n
  show (((rawCounter r0 t n + t n) % encoderModulus) + encoderModulus -
      rawCounter r0 t n) % encoderModulus = t n
  revert ha hb
  generalize rawCounter r0 t n = a
  generalize t n = b
  intro ha hb
  simp only [encoderModulus, quadrature_timer_period] at *
  omega

/-- C2: the encoder counters wrap modulo `2 ^ 16` (auto-reload `0xFFFF`),
the per-poll delta `(r1 - r0) mod 2 ^ 16` recovers the true edge count as
long as at most one wrap occurred between the two readings (true count
below `2 ^ 16`, forward counting convention), and the accumulated distance
after `N` polls is the micrometers-per-count constant times the total true
edge count, regardless of how many wraps happened over the whole run. -/
theorem encoder_wrap_distance_correct (k r0 : Nat) (t : Nat → Nat)
    (hw : ∀ n, t n < encoderModulus) :
    encoderModulus = 2 ^ 16 ∧
    (∀ n, pollDelta (rawCounter r0 t n) (rawCounter r0 t (n + 1)) = t n) ∧
    (∀ N, cumulativeDistance k r0 t N = k * (Finset.range N).sum t) := by
  refine ⟨rfl, pollDelta_rawCounter r0 t hw, ?_⟩
  intro N
  induction N with
  | zero => simp [cumulativeDistance]
  | succ n ih =>
    rw [cumulativeDistance, ih, pollDelta_rawCounter r0 t hw n,
      Finset.sum_range_succ, Nat.mul_add]

/-- Witness for C2 on a concrete wrapping run: three polls of 40000 true
counts each from raw value 60000 (the counter wraps during the run), scaled
by 3 micrometers per count. -/
theorem encoder_wrap_distance_correct_witness :
    (∀ n : Nat, (fun _ : Nat => 40000) n < encoderModulus) ∧
    cumulativeDistance 3 60000 (fun _ => 40000) 3 =
      3 * (Finset.range 3).sum (fun _ => 40000) := by
  have hw : ∀ n : Nat, (fun _ : Nat => 40000) n < encoderModulus := by
    intro n
    show (40000 : Nat) < encoderModulus
    decide
  exact ⟨hw, (encoder_wrap_distance_correct 3 60000 (fun _ => 40000) hw).2.2 3⟩

/-- C8: the channel-to-logical-sensor mapping published by the completion
handler is fixed for every sweep: injected rank 1 is stored as
`side_left`, rank 2 as `side_right`, rank 3 as `front_left` and rank 4 as
`front_right`. -/
theorem adc_rank_to_sensor_mapping (read : Nat → Nat) :
    (adc1_2_isr read).cell SENSOR_SIDE_LEFT = read 1 ∧
    (adc1_2_isr read).cell SENSOR_SIDE_RIGHT = read 2 ∧
    (adc1_2_isr read).cell SENSOR_FRONT_LEFT = read 3 ∧
    (adc1_2_isr read).cell SENSOR_FRONT_RIGHT = read 4 :=
  ⟨rfl, rfl, rfl, rfl⟩

/-- C1 counterexample: the handler publishes the four cells directly, with
no sequence number and no staging, so a foreground read interleaved with a
handler invocation observes a frame that matches no single completed sweep:
under the (monotone) schedule `schedEx` the observed frame mixes fields
written by two different handler invocations. -/
theorem sensor_frame_tearing_counterexample :
    schedEx 0 ≤ schedEx 1 ∧ schedEx 1 ≤ schedEx 2 ∧ schedEx 2 ≤ schedEx 3 ∧
    ∀ k, observedFrame initCells sweepEx schedEx ≠ cellsAfter initCells sweepEx k := by
  refine ⟨by decide, by decide, by decide, ?_⟩
  intro k h
  have h1 := congrArg SensorCells.sensor_1 h
  have h2 := congrArg SensorCells.sensor_2 h
  match k with
  | 0 => simp [observedFrame, cellsAfter, adc1_2_isr, sweepEx, schedEx, initCells] at h1
  | 1 => simp [observedFrame, cellsAfter, adc1_2_isr, sweepEx, schedEx, initCells] at h2
  | k + 2 => simp [observedFrame, cellsAfter, adc1_2_isr, sweepEx, schedEx, initCells] at h1

/-- C1 (amended): the code gives only this weaker guarantee: if no handler
invocation fires between the foreground's four field reads (the schedule is
constant), the observed frame is exactly the cell state after that number
of completed invocations, hence all four fields come from one sweep. -/
theorem sensor_frame_coherent_without_interleaving
    (init : SensorCells) (sweep : Nat → Nat → Nat) (sched : Nat → Nat)
    (c : Nat) (h : ∀ i, i < 4 → sched i = c) :
    observedFrame init sweep sched = cellsAfter init sweep c := by
  show SensorCells.mk _ _ _ _ = _
  rw [h 0 (by decide), h 1 (by decide), h 2 (by decide), h 3 (by decide)]

/-- Witness for the amended C1 on a concrete uninterrupted read. -/
theorem sensor_frame_coherent_without_interleaving_witness :
    observedFrame initCells sweepEx (fun _ => 1) = cellsAfter initCells sweepEx 1 :=
  sensor_frame_coherent_without_interleaving initCells sweepEx (fun _ => 1) 1
    (fun _ _ => rfl)

/-- C4: with `target_angular_speed = 4π rad/s`, the HOLD phase of the
angular speed profile lasts `1000·(3π)/(4π) = 750` ticks and the HOLD phase
of the static 90-degree turn lasts `1000·(π/2)/(4π) = 125` ticks (the
`each` call holding the speed runs for exactly its duration argument). -/
theorem hold_phase_durations :
    angular_hold_duration = 750 ∧ static_turn_hold_duration = 125 := by
  have hpi : Real.pi ≠ 0 := Real.pi_ne_zero
  constructor
  · rw [angular_hold_duration, profile_target_angular_speed,
      div_eq_iff (by positivity : (4 : ℝ) * Real.pi ≠ 0)]
    ring
  · rw [static_turn_hold_duration, profile_target_angular_speed,
      div_eq_iff (by positivity : (4 : ℝ) * Real.pi ≠ 0)]
    ring

theorem eachLogsAux_eq (interval : Nat) (hi : 0 < interval) :
    ∀ fuel remaining t, remaining ≤ fuel →
    eachLogsAux interval fuel remaining t = eachTicks interval remaining t := by
  intro fuel
  induction fuel with
  | zero =>
    intro remaining t hle
    obtain rfl : remaining = 0 := Nat.le_zero.mp hle
    rw [eachLogsAux, eachTicks, Nat.zero_add, Nat.div_eq_of_lt (by omega)]
    rfl
  | succ fuel ih =>
    intro remaining t hle
    match remaining with
    | 0 =>
      rw [eachLogsAux, eachTicks, Nat.zero_add, Nat.div_eq_of_lt (by omega)]
      rfl
    | r + 1 =>
      rw [eachLogsAux, ih (r + 1 - interval) (t + interval) (by omega)]
      rw [eachTicks, eachTicks]
      have h1 : (r + 1 + interval - 1) / interval = r / interval + 1 := by
        have e : r + 1 + interval - 1 = r + interval := by omega
        rw [e, Nat.add_div_right r hi]
      have h2 : (r + 1 - interval + interval - 1) / interval = r / interval := by
        rcases le_or_lt interval (r + 1) with h | h
        · have e : r + 1 - interval + interval - 1 = r := by omega
          rw [e]
        · have e : r + 1 - interval + interval - 1 = interval - 1 := by omega
          rw [e, Nat.div_eq_of_lt (by omega), Nat.div_eq_of_lt (by omega)]
      rw [h1, h2, List.range_succ_eq_map, List.map_cons, List.map_map]
      refine congrArg₂ _ (by simp) ?_
      refine List.map_congr_left ?_
      intro j _
      simp only [Function.comp_apply, Nat.succ_eq_add_one]
      ring

theorem each_eq (interval total : Nat) (hi : 0 < interval) (k : LogKind) (s : St) :
    each interval total k s =
      { s with tick := s.tick + total,
               events := s.events ++ (eachTicks interval total s.tick).map (Ev.log k) } := by
  rw [each, eachLogsAux_eq interval hi total total s.tick le_rfl]

theorem tickLogLoop_shape (cond : Nat → Bool) (k : LogKind) :
    ∀ fuel s, ∃ d L,
      tickLogLoop cond k fuel s =
        { s with tick := s.tick + d, events := s.events ++ L } ∧
      ∀ e ∈ L, ∃ tc, e = Ev.log k tc := by
  intro fuel
  induction fuel with
  | zero =>
    intro s
    refine ⟨0, [], ?_, by simp⟩
    cases s
    simp [tickLogLoop]
  | succ fuel ih =>
    intro s
    by_cases h : cond s.tick
    · refine ⟨0, [], ?_, by simp⟩
      cases s
      simp_all [tickLogLoop]
    · obtain ⟨d, L, heq, hlog⟩ :=
        ih { s with tick := s.tick + 1, events := s.events ++ [Ev.log k s.tick] }
      refine ⟨1 + d, Ev.log k s.tick :: L, ?_, ?_⟩
      · rw [tickLogLoop, if_neg h, heq]
        cases s
        simp [Nat.add_assoc]
      · intro e he
        rcases List.mem_cons.mp he with rfl | he
        · exact ⟨s.tick, rfl⟩
        · exact hlog e he

theorem tickLogLoop_exit (cond : Nat → Bool) (k : LogKind) :
    ∀ fuel n0 s, n0 < fuel →
    (∀ m, m < n0 → cond (s.tick + m) = false) → cond (s.tick + n0) = true →
    tickLogLoop cond k fuel s =
      { s with tick := s.tick + n0,
               events := s.events ++ (List.range n0).map (fun m => Ev.log k (s.tick + m)) } := by
  intro fuel
  induction fuel with
  | zero =>
    intro n0 s hf
    omega
  | succ fuel ih =>
    intro n0 s hf hmin hstop
    match n0 with
    | 0 =>
      have hc : cond s.tick = true := by simpa using hstop
      rw [tickLogLoop, if_pos hc]
      cases s
      simp
    | m + 1 =>
      have hc : cond s.tick = false := by simpa using hmin 0 (by omega)
      rw [tickLogLoop, if_neg (by simp [hc])]
      rw [ih m _ (by omega) ?hmin ?hstop]
      case hmin =>
        intro j hj
        have := hmin (j + 1) (by omega)
        simpa [Nat.add_assoc, Nat.add_comm 1 j] using this
      case hstop =>
        simpa [Nat.add_assoc, Nat.add_comm 1 m] using hstop
      cases s
      simp only [St.mk.injEq, List.range_succ_eq_map, List.map_cons, List.map_map,
        List.append_assoc, List.cons_append, List.nil_append, Nat.add_zero]
      refine ⟨by omega, trivial, trivial, trivial, trivial, trivial, trivial, trivial, trivial, ?_⟩
      congr 1
      congr 1
      refine List.map_congr_left fun j _ => ?_
      simp only [Function.comp_apply, Nat.succ_eq_add_one]
      congr 1
      omega

theorem pollLogLoop_shape (cond : Nat → Bool) (k : LogKind) :
    ∀ fuel n s, ∃ L,
      pollLogLoop cond k fuel n s = { s with events := s.events ++ L } ∧
      ∀ e ∈ L, ∃ tc, e = Ev.log k tc := by
  intro fuel
  induction fuel with
  | zero =>
    intro n s
    refine ⟨[], ?_, by simp⟩
    cases s
    simp [pollLogLoop]
  | succ fuel ih =>
    intro n s
    by_cases h : cond n
    · refine ⟨[], ?_, by simp⟩
      cases s
      simp_all [pollLogLoop]
    · obtain ⟨L, heq, hlog⟩ := ih (n + 1) { s with events := s.events ++ [Ev.log k s.tick] }
      refine ⟨Ev.log k s.tick :: L, ?_, ?_⟩
      · rw [pollLogLoop, if_neg h, heq]
        cases s
        simp
      · intro e he
        rcases List.mem_cons.mp he with rfl | he
        · exact ⟨s.tick, rfl⟩
        · exact hlog e he

theorem pollLogLoop_exit (cond : Nat → Bool) (k : LogKind) :
    ∀ fuel d n s, d < fuel →
    (∀ m, m < d → cond (n + m) = false) → cond (n + d) = true →
    pollLogLoop cond k fuel n s =
      { s with events := s.events ++ List.replicate d (Ev.log k s.tick) } := by
  intro fuel
  induction fuel with
  | zero =>
    intro d n s hf
    omega
  | succ fuel ih =>
    intro d n s hf hmin hstop
    match d with
    | 0 =>
      have hc : cond n = true := by simpa using hstop
      rw [pollLogLoop, if_pos hc]
      cases s
      simp
    | m + 1 =>
      have hc : cond n = false := by simpa using hmin 0 (by omega)
      rw [pollLogLoop, if_neg (by simp [hc])]
      rw [ih m (n + 1) _ (by omega) ?hmin ?hstop]
      case hmin =>
        intro j hj
        have := hmin (j + 1) (by omega)
        simpa [Nat.add_assoc, Nat.add_comm 1 j] using this
      case hstop =>
        simpa [Nat.add_assoc, Nat.add_comm 1 m] using hstop
      cases s
      simp [List.replicate_succ]

theorem run_angular_eq (holdTicks : Nat) (w : ℚ) (s0 : St) :
    run_angular_speed_profile holdTicks w s0 =
      { tick := s0.tick + 1000 + holdTicks + 2000
        motor := true
        sideCtl := false
        frontCtl := false
        linAcc := s0.linAcc
        linDec := s0.linDec
        maxLin := s0.maxLin
        targetAng := 0
        targetLin := 0
        events := s0.events
          ++ (eachTicks 10 1000 s0.tick).map (Ev.log LogKind.angularSpeed)
          ++ [Ev.cmdAng w (s0.tick + 1000) true false false,
              Ev.cmdLin 0 (s0.tick + 1000) true false false]
          ++ (eachTicks 10 holdTicks (s0.tick + 1000)).map (Ev.log LogKind.angularSpeed)
          ++ [Ev.cmdAng 0 (s0.tick + 1000 + holdTicks) true false false,
              Ev.cmdLin 0 (s0.tick + 1000 + holdTicks) true false false]
          ++ (eachTicks 10 2000 (s0.tick + 1000 + holdTicks)).map (Ev.log LogKind.angularSpeed) } := by
  cases s0
  simp [run_angular_speed_profile, disable_walls_control, enable_motor_control,
    set_target_angular_speed, set_target_linear_speed, reset_motion,
    each_eq, List.append_assoc]

theorem run_static_turn_eq (holdTicks : Nat) (w : ℚ) (s0 : St) :
    run_static_turn_right_profile holdTicks w s0 =
      { tick := s0.tick + 1000 + holdTicks + 200
        motor := true
        sideCtl := false
        frontCtl := false
        linAcc := s0.linAcc
        linDec := s0.linDec
        maxLin := s0.maxLin
        targetAng := 0
        targetLin := 0
        events := s0.events
          ++ (eachTicks 10 1000 s0.tick).map (Ev.log LogKind.angularSpeed)
          ++ [Ev.cmdAng w (s0.tick + 1000) true false false,
              Ev.cmdLin 0 (s0.tick + 1000) true false false]
          ++ (eachTicks 10 holdTicks (s0.tick + 1000)).map (Ev.log LogKind.angularSpeed)
          ++ [Ev.cmdAng 0 (s0.tick + 1000 + holdTicks) true false false,
              Ev.cmdLin 0 (s0.tick + 1000 + holdTicks) true false false]
          ++ (eachTicks 10 200 (s0.tick + 1000 + holdTicks)).map (Ev.log LogKind.angularSpeed) } := by
  cases s0
  simp [run_static_turn_right_profile, disable_walls_control, enable_motor_control,
    set_target_angular_speed, set_target_linear_speed, reset_motion,
    each_eq, List.append_assoc]

theorem run_micrometers_eq (cells : Nat) (s0 : St) :
    run_micrometers_per_count_calibration cells s0 =
      { tick := s0.tick
        motor := true
        sideCtl := false
        frontCtl := false
        linAcc := s0.linAcc
        linDec := s0.linDec
        maxLin := s0.maxLin
        targetAng := s0.targetAng
        targetLin := s0.targetLin
        events := s0.events
          ++ [Ev.accelRamp s0.tick true true false,
              Ev.decelRamp s0.tick true false false] } := by
  cases s0
  simp [run_micrometers_per_count_calibration, get_linear_acceleration,
    get_linear_deceleration, get_max_linear_speed, set_linear_acceleration,
    set_linear_deceleration, set_max_linear_speed, reset_motion,
    side_sensors_calibration, enable_motor_control, side_sensors_control,
    front_sensors_control, accelerate, disable_walls_control, decelerate,
    reset_control_errors]

theorem run_linear_shape (enc : Nat → Int) (fuel : Nat) (s0 : St) :
    ∃ d L,
      (∀ e ∈ L, ∃ tc, e = Ev.log LogKind.linearSpeed tc) ∧
      run_linear_speed_profile enc fuel s0 =
        { tick := s0.tick + 1000 + d + 2000
          motor := true
          sideCtl := false
          frontCtl := false
          linAcc := s0.linAcc
          linDec := s0.linDec
          maxLin := s0.maxLin
          targetAng := 0
          targetLin := 0
          events := s0.events
            ++ (eachTicks 10 1000 s0.tick).map (Ev.log LogKind.linearSpeed)
            ++ [Ev.cmdAng 0 (s0.tick + 1000) true false false,
                Ev.cmdLin s0.maxLin (s0.tick + 1000) true false false]
            ++ L
            ++ [Ev.cmdAng 0 (s0.tick + 1000 + d) true false false,
                Ev.cmdLin 0 (s0.tick + 1000 + d) true false false]
            ++ (eachTicks 1 2000 (s0.tick + 1000 + d)).map (Ev.log LogKind.linearSpeed) } := by
  cases s0 with
  | mk tk mo sc fc la ld ml ta tl ev =>
    obtain ⟨d, L, heq, hlog⟩ := tickLogLoop_shape
      (fun tc => decide (500000 ≤ enc tc - enc (tk + 1000))) LogKind.linearSpeed fuel
      { tick := tk + 1000, motor := true, sideCtl := false, frontCtl := false,
        linAcc := la, linDec := ld, maxLin := ml, targetAng := 0, targetLin := ml,
        events := ev ++ (List.map (Ev.log LogKind.linearSpeed) (eachTicks 10 1000 tk) ++
          [Ev.cmdAng 0 (tk + 1000) true false false,
           Ev.cmdLin ml (tk + 1000) true false false]) }
    refine ⟨d, L, hlog, ?_⟩
    simp [run_linear_speed_profile, disable_walls_control, enable_motor_control,
      set_target_angular_speed, set_target_linear_speed, get_max_linear_speed,
      reset_motion, each_eq, heq, List.append_assoc]

theorem run_linear_eq (enc : Nat → Int) (fuel : Nat) (s0 : St) (n0 : Nat)
    (hf : n0 < fuel)
    (hmin : ∀ m, m < n0 → enc (s0.tick + 1000 + m) - enc (s0.tick + 1000) < 500000)
    (hstop : 500000 ≤ enc (s0.tick + 1000 + n0) - enc (s0.tick + 1000)) :
    run_linear_speed_profile enc fuel s0 =
      { tick := s0.tick + 1000 + n0 + 2000
        motor := true
        sideCtl := false
        frontCtl := false
        linAcc := s0.linAcc
        linDec := s0.linDec
        maxLin := s0.maxLin
        targetAng := 0
        targetLin := 0
        events := s0.events
          ++ (eachTicks 10 1000 s0.tick).map (Ev.log LogKind.linearSpeed)
          ++ [Ev.cmdAng 0 (s0.tick + 1000) true false false,
              Ev.cmdLin s0.maxLin (s0.tick + 1000) true false false]
          ++ (List.range n0).map (fun m => Ev.log LogKind.linearSpeed (s0.tick + 1000 + m))
          ++ [Ev.cmdAng 0 (s0.tick + 1000 + n0) true false false,
              Ev.cmdLin 0 (s0.tick + 1000 + n0) true false false]
          ++ (eachTicks 1 2000 (s0.tick + 1000 + n0)).map (Ev.log LogKind.linearSpeed) } := by
  cases s0 with
  | mk tk mo sc fc la ld ml ta tl ev =>
    simp only [St.tick] at hmin hstop
    have heq := tickLogLoop_exit
      (fun tc => decide (500000 ≤ enc tc - enc (tk + 1000))) LogKind.linearSpeed fuel n0
      { tick := tk + 1000, motor := true, sideCtl := false, frontCtl := false,
        linAcc := la, linDec := ld, maxLin := ml, targetAng := 0, targetLin := ml,
        events := ev ++ (List.map (Ev.log LogKind.linearSpeed) (eachTicks 10 1000 tk) ++
          [Ev.cmdAng 0 (tk + 1000) true false false,
           Ev.cmdLin ml (tk + 1000) true false false]) }
      hf
      (fun m hm => by
        simp only [decide_eq_false_iff_not, not_le]
        exact hmin m hm)
      (by
        simp only [decide_eq_true_eq]
        exact hstop)
    simp [run_linear_speed_profile, disable_walls_control, enable_motor_control,
      set_target_angular_speed, set_target_linear_speed, get_max_linear_speed,
      reset_motion, each_eq, heq, List.append_assoc]

theorem run_front_shape (encStart : Int) (encF : Nat → Int) (mts off : Int)
    (fuel : Nat) (s0 : St) :
    ∃ L,
      (∀ e ∈ L, ∃ tc, e = Ev.log LogKind.frontSensors tc) ∧
      run_front_sensors_calibration encStart encF mts off fuel s0 =
        { tick := s0.tick + 200
          motor := true
          sideCtl := false
          frontCtl := false
          linAcc := s0.linAcc
          linDec := s0.linDec
          maxLin := s0.maxLin
          targetAng := 0
          targetLin := 0
          events := s0.events
            ++ [Ev.cmdAng 0 s0.tick true false false,
                Ev.cmdLin (3 / 10) s0.tick true false false]
            ++ L
            ++ [Ev.cmdAng 0 s0.tick true false false,
                Ev.cmdLin 0 s0.tick true false false]
            ++ (eachTicks 2 200 s0.tick).map (Ev.log LogKind.frontSensors) } := by
  cases s0 with
  | mk tk mo sc fc la ld ml ta tl ev =>
    obtain ⟨L, heq, hlog⟩ := pollLogLoop_shape
      (fun n => decide (encStart + off ≤ encF n + mts)) LogKind.frontSensors fuel 0
      { tick := tk, motor := true, sideCtl := false, frontCtl := false,
        linAcc := 4, linDec := ld, maxLin := ml, targetAng := 0, targetLin := 3 / 10,
        events := ev ++ [Ev.cmdAng 0 tk true false false,
          Ev.cmdLin (3 / 10) tk true false false] }
    refine ⟨L, hlog, ?_⟩
    simp [run_front_sensors_calibration, disable_walls_control, enable_motor_control,
      get_linear_acceleration, set_linear_acceleration, set_target_angular_speed,
      set_target_linear_speed, reset_motion, each_eq, heq, List.append_assoc]

theorem run_front_eq (encStart : Int) (encF : Nat → Int) (mts off : Int)
    (fuel : Nat) (s0 : St) (n0 : Nat)
    (hf : n0 < fuel)
    (hmin : ∀ m, m < n0 → encF m < encStart + off - mts)
    (hstop : encStart + off - mts ≤ encF n0) :
    run_front_sensors_calibration encStart encF mts off fuel s0 =
      { tick := s0.tick + 200
        motor := true
        sideCtl := false
        frontCtl := false
        linAcc := s0.linAcc
        linDec := s0.linDec
        maxLin := s0.maxLin
        targetAng := 0
        targetLin := 0
        events := s0.events
          ++ [Ev.cmdAng 0 s0.tick true false false,
              Ev.cmdLin (3 / 10) s0.tick true false false]
          ++ List.replicate n0 (Ev.log LogKind.frontSensors s0.tick)
          ++ [Ev.cmdAng 0 s0.tick true false false,
              Ev.cmdLin 0 s0.tick true false false]
          ++ (eachTicks 2 200 s0.tick).map (Ev.log LogKind.frontSensors) } := by
  cases s0 with
  | mk tk mo sc fc la ld ml ta tl ev =>
    have heq := pollLogLoop_exit
      (fun n => decide (encStart + off ≤ encF n + mts)) LogKind.frontSensors fuel n0 0
      { tick := tk, motor := true, sideCtl := false, frontCtl := false,
        linAcc := 4, linDec := ld, maxLin := ml, targetAng := 0, targetLin := 3 / 10,
        events := ev ++ [Ev.cmdAng 0 tk true false false,
          Ev.cmdLin (3 / 10) tk true false false] }
      hf
      (fun m hm => by
        simp only [Nat.zero_add, decide_eq_false_iff_not, not_le]
        have := hmin m hm
        omega)
      (by
        simp only [Nat.zero_add, decide_eq_true_eq]
        omega)
    simp [run_front_sensors_calibration, disable_walls_control, enable_motor_control,
      get_linear_acceleration, set_linear_acceleration, set_target_angular_speed,
      set_target_linear_speed, reset_motion, each_eq, heq, List.append_assoc]

/-- C7: the configuration overridden by a calibration procedure is restored
by the time it returns: `run_micrometers_per_count_calibration` restores the
linear acceleration, the linear deceleration and the maximum linear speed it
overrode with 4, 4 and 0.4, and `run_front_sensors_calibration` restores the
linear acceleration it overrode with 4 — whatever the entry values and the
environment. -/
theorem calibration_restores_configuration :
    (∀ (cells : Nat) (s0 : St),
        (run_micrometers_per_count_calibration cells s0).linAcc = s0.linAcc ∧
        (run_micrometers_per_count_calibration cells s0).linDec = s0.linDec ∧
        (run_micrometers_per_count_calibration cells s0).maxLin = s0.maxLin) ∧
    (∀ (encStart : Int) (encF : Nat → Int) (mts off : Int) (fuel : Nat) (s0 : St),
        (run_front_sensors_calibration encStart encF mts off fuel s0).linAcc = s0.linAcc) := by
  constructor
  · intro cells s0
    rw [run_micrometers_eq]
    exact ⟨rfl, rfl, rfl⟩
  · intro encStart encF mts off fuel s0
    obtain ⟨L, hlog, heq⟩ := run_front_shape encStart encF mts off fuel s0
    rw [heq]

/-- C5: once a procedure has commanded zero target speed for its settle
phase, periodic logging continues for exactly the configured settle
duration, independent of the environment: the linear profile's trace ends
with the zero-speed commands at some tick `T` followed by 2000 logs at
ticks `T, T+1, ..., T+1999` and the run ends at tick `T + 2000`; the
angular profile ends with 200 logs at ticks `T, T+10, ..., T+1990` and
final tick `T + 2000`; the static turn ends with 20 logs at ticks
`T, T+10, ..., T+190` and final tick `T + 200`. -/
theorem settle_phase_exact_durations :
    (∀ (enc : Nat → Int) (fuel : Nat) (s0 : St), ∃ p T,
        (run_linear_speed_profile enc fuel s0).events =
          p ++ [Ev.cmdAng 0 T true false false, Ev.cmdLin 0 T true false false]
            ++ (List.range 2000).map (fun j => Ev.log LogKind.linearSpeed (T + j)) ∧
        (run_linear_speed_profile enc fuel s0).tick = T + 2000) ∧
    (∀ (holdTicks : Nat) (w : ℚ) (s0 : St), ∃ p T,
        (run_angular_speed_profile holdTicks w s0).events =
          p ++ [Ev.cmdAng 0 T true false false, Ev.cmdLin 0 T true false false]
            ++ (List.range 200).map (fun j => Ev.log LogKind.angularSpeed (T + j * 10)) ∧
        (run_angular_speed_profile holdTicks w s0).tick = T + 2000) ∧
    (∀ (holdTicks : Nat) (w : ℚ) (s0 : St), ∃ p T,
        (run_static_turn_right_profile holdTicks w s0).events =
          p ++ [Ev.cmdAng 0 T true false false, Ev.cmdLin 0 T true false false]
            ++ (List.range 20).map (fun j => Ev.log LogKind.angularSpeed (T + j * 10)) ∧
        (run_static_turn_right_profile holdTicks w s0).tick = T + 200) := by
  refine ⟨?_, ?_, ?_⟩
  · intro enc fuel s0
    obtain ⟨d, L, hlog, heq⟩ := run_linear_shape enc fuel s0
    refine ⟨s0.events
      ++ (eachTicks 10 1000 s0.tick).map (Ev.log LogKind.linearSpeed)
      ++ [Ev.cmdAng 0 (s0.tick + 1000) true false false,
          Ev.cmdLin s0.maxLin (s0.tick + 1000) true false false]
      ++ L, s0.tick + 1000 + d, ?_, ?_⟩
    · rw [heq]
      simp [eachTicks, List.map_map, List.append_assoc, Function.comp]
    · rw [heq]
  · intro holdTicks w s0
    refine ⟨s0.events
      ++ (eachTicks 10 1000 s0.tick).map (Ev.log LogKind.angularSpeed)
      ++ [Ev.cmdAng w (s0.tick + 1000) true false false,
          Ev.cmdLin 0 (s0.tick + 1000) true false false]
      ++ (eachTicks 10 holdTicks (s0.tick + 1000)).map (Ev.log LogKind.angularSpeed),
      s0.tick + 1000 + holdTicks, ?_, ?_⟩
    · rw [run_angular_eq]
      simp [eachTicks, List.map_map, List.append_assoc, Function.comp]
    · rw [run_angular_eq]
  · intro holdTicks w s0
    refine ⟨s0.events
      ++ (eachTicks 10 1000 s0.tick).map (Ev.log LogKind.angularSpeed)
      ++ [Ev.cmdAng w (s0.tick + 1000) true false false,
          Ev.cmdLin 0 (s0.tick + 1000) true false false]
      ++ (eachTicks 10 holdTicks (s0.tick + 1000)).map (Ev.log LogKind.angularSpeed),
      s0.tick + 1000 + holdTicks, ?_, ?_⟩
    · rw [run_static_turn_eq]
      simp [eachTicks, List.map_map, List.append_assoc, Function.comp]
    · rw [run_static_turn_eq]

/-- C3: in the linear speed profile, zero target speed is commanded at the
first poll at which the accumulated average encoder distance since the
phase start is at least 500,000 micrometers, and never at an earlier poll:
if `n0` is the first poll reaching the threshold (below it at every earlier
poll), the run logs the travel phase at polls `0 .. n0 - 1` and issues the
zero-speed commands exactly at poll `n0`, i.e. at tick
`s0.tick + 1000 + n0`. -/
theorem linear_travel_ends_at_first_threshold_poll
    (enc : Nat → Int) (fuel : Nat) (s0 : St) (n0 : Nat)
    (hf : n0 < fuel)
    (hmin : ∀ m, m < n0 → enc (s0.tick + 1000 + m) - enc (s0.tick + 1000) < 500000)
    (hstop : 500000 ≤ enc (s0.tick + 1000 + n0) - enc (s0.tick + 1000)) :
    run_linear_speed_profile enc fuel s0 =
      { tick := s0.tick + 1000 + n0 + 2000
        motor := true
        sideCtl := false
        frontCtl := false
        linAcc := s0.linAcc
        linDec := s0.linDec
        maxLin := s0.maxLin
        targetAng := 0
        targetLin := 0
        events := s0.events
          ++ (eachTicks 10 1000 s0.tick).map (Ev.log LogKind.linearSpeed)
          ++ [Ev.cmdAng 0 (s0.tick + 1000) true false false,
              Ev.cmdLin s0.maxLin (s0.tick + 1000) true false false]
          ++ (List.range n0).map (fun m => Ev.log LogKind.linearSpeed (s0.tick + 1000 + m))
          ++ [Ev.cmdAng 0 (s0.tick + 1000 + n0) true false false,
              Ev.cmdLin 0 (s0.tick + 1000 + n0) true false false]
          ++ (eachTicks 1 2000 (s0.tick + 1000 + n0)).map (Ev.log LogKind.linearSpeed) } :=
  run_linear_eq enc fuel s0 n0 hf hmin hstop

/-- Witness for C3: with the encoder advancing 250000 µm per tick, the
threshold is first reached at travel poll 2 and the zero-speed commands are
issued at tick 1002. -/
theorem linear_travel_ends_at_first_threshold_poll_witness :
    (2 < 3) ∧
    (∀ m, m < 2 → encEx (stEx.tick + 1000 + m) - encEx (stEx.tick + 1000) < 500000) ∧
    (500000 ≤ encEx (stEx.tick + 1000 + 2) - encEx (stEx.tick + 1000)) ∧
    run_linear_speed_profile encEx 3 stEx =
      { tick := stEx.tick + 1000 + 2 + 2000
        motor := true
        sideCtl := false
        frontCtl := false
        linAcc := stEx.linAcc
        linDec := stEx.linDec
        maxLin := stEx.maxLin
        targetAng := 0
        targetLin := 0
        events := stEx.events
          ++ (eachTicks 10 1000 stEx.tick).map (Ev.log LogKind.linearSpeed)
          ++ [Ev.cmdAng 0 (stEx.tick + 1000) true false false,
              Ev.cmdLin stEx.maxLin (stEx.tick + 1000) true false false]
          ++ (List.range 2).map (fun m => Ev.log LogKind.linearSpeed (stEx.tick + 1000 + m))
          ++ [Ev.cmdAng 0 (stEx.tick + 1000 + 2) true false false,
              Ev.cmdLin 0 (stEx.tick + 1000 + 2) true false false]
          ++ (eachTicks 1 2000 (stEx.tick + 1000 + 2)).map (Ev.log LogKind.linearSpeed) } := by
  refine ⟨by decide, ?_, ?_, ?_⟩
  · intro m hm
    interval_cases m <;> decide
  · decide
  · exact linear_travel_ends_at_first_threshold_poll encEx 3 stEx 2 (by decide)
      (fun m hm => by interval_cases m <;> decide) (by decide)

/-- C6: in `run_front_sensors_calibration` the approach commands zero
angular speed and 0.3 m/s linear speed, a calibration sample is logged on
every loop iteration (one log per poll, `n0` of them), and zero target
speed is commanded at the first poll `n0` at which the encoder reading is
at least `target - stopping_distance` (`target` being the entry reading
plus the 1.3-cell offset and `stopping_distance` the value returned by
`required_micrometers_to_speed(0.)`). -/
theorem front_calibration_stops_at_first_threshold_poll
    (encStart : Int) (encF : Nat → Int) (mts off : Int)
    (fuel : Nat) (s0 : St) (n0 : Nat)
    (hf : n0 < fuel)
    (hmin : ∀ m, m < n0 → encF m < encStart + off - mts)
    (hstop : encStart + off - mts ≤ encF n0) :
    run_front_sensors_calibration encStart encF mts off fuel s0 =
      { tick := s0.tick + 200
        motor := true
        sideCtl := false
        frontCtl := false
        linAcc := s0.linAcc
        linDec := s0.linDec
        maxLin := s0.maxLin
        targetAng := 0
        targetLin := 0
        events := s0.events
          ++ [Ev.cmdAng 0 s0.tick true false false,
              Ev.cmdLin (3 / 10) s0.tick true false false]
          ++ List.replicate n0 (Ev.log LogKind.frontSensors s0.tick)
          ++ [Ev.cmdAng 0 s0.tick true false false,
              Ev.cmdLin 0 s0.tick true false false]
          ++ (eachTicks 2 200 s0.tick).map (Ev.log LogKind.frontSensors) } :=
  run_front_eq encStart encF mts off fuel s0 n0 hf hmin hstop

/-- Witness for C6: with a 234000 µm offset, a 30000 µm stopping distance
and the encoder advancing 100000 µm per poll, the threshold 204000 µm is
first reached at poll 3. -/
theorem front_calibration_stops_at_first_threshold_poll_witness :
    (3 < 4) ∧
    (∀ m, m < 3 → encFEx m < 0 + 234000 - 30000) ∧
    (0 + 234000 - 30000 ≤ encFEx 3) ∧
    run_front_sensors_calibration 0 encFEx 30000 234000 4 stEx =
      { tick := stEx.tick + 200
        motor := true
        sideCtl := false
        frontCtl := false
        linAcc := stEx.linAcc
        linDec := stEx.linDec
        maxLin := stEx.maxLin
        targetAng := 0
        targetLin := 0
        events := stEx.events
          ++ [Ev.cmdAng 0 stEx.tick true false false,
              Ev.cmdLin (3 / 10) stEx.tick true false false]
          ++ List.replicate 3 (Ev.log LogKind.frontSensors stEx.tick)
          ++ [Ev.cmdAng 0 stEx.tick true false false,
              Ev.cmdLin 0 stEx.tick true false false]
          ++ (eachTicks 2 200 stEx.tick).map (Ev.log LogKind.frontSensors) } := by
  refine ⟨by decide, ?_, ?_, ?_⟩
  · intro m hm
    interval_cases m <;> decide
  · decide
  · exact front_calibration_stops_at_first_threshold_poll 0 encFEx 30000 234000 4 stEx 3
      (by decide) (fun m hm => by interval_cases m <;> decide) (by decide)

/-- C9 counterexample: the claim fails on
`run_micrometers_per_count_calibration`, which issues its `accelerate` ramp
— its first motion command — while side-sensors wall control is enabled
(the procedure deliberately turns it on first; its own comment reads "Side
walls control is activated").  Starting from `stEx`, whose wall controls
are off, the trace contains the acceleration ramp stamped with
side-sensors control enabled. -/
theorem micrometers_accelerates_with_side_control_enabled :
    stEx.sideCtl = false ∧
    Ev.accelRamp 0 true true false ∈
      (run_micrometers_per_count_calibration 3 stEx).events ∧
    ¬ cmdFlagsOk (Ev.accelRamp 0 true true false) := by
  refine ⟨rfl, ?_, ?_⟩
  · rw [run_micrometers_eq]
    simp [stEx]
  · simp [cmdFlagsOk]

/-- C9 (amended): every calibration procedure that commands motion, except
the micrometers-per-count calibration, disables walls control and enables
motor control on entry and keeps walls control disabled throughout: every
motion event those four procedures append to the trace carries motor
control on and both wall controls off.  `run_micrometers_per_count_calibration`
instead issues its `accelerate` ramp with side-sensors control enabled and
disables walls control only before its `decelerate` ramp. -/
theorem walls_control_discipline :
    (∀ (enc : Nat → Int) (fuel : Nat) (s0 : St),
        ∀ e ∈ (run_linear_speed_profile enc fuel s0).events.drop s0.events.length,
          cmdFlagsOk e) ∧
    (∀ (holdTicks : Nat) (w : ℚ) (s0 : St),
        ∀ e ∈ (run_angular_speed_profile holdTicks w s0).events.drop s0.events.length,
          cmdFlagsOk e) ∧
    (∀ (holdTicks : Nat) (w : ℚ) (s0 : St),
        ∀ e ∈ (run_static_turn_right_profile holdTicks w s0).events.drop s0.events.length,
          cmdFlagsOk e) ∧
    (∀ (encStart : Int) (encF : Nat → Int) (mts off : Int) (fuel : Nat) (s0 : St),
        ∀ e ∈ (run_front_sensors_calibration encStart encF mts off fuel s0).events.drop
            s0.events.length,
          cmdFlagsOk e) ∧
    (∀ (cells : Nat) (s0 : St),
        (run_micrometers_per_count_calibration cells s0).events.drop s0.events.length =
          [Ev.accelRamp s0.tick true true false,
           Ev.decelRamp s0.tick true false false]) := by
  refine ⟨?_, ?_, ?_, ?_, ?_⟩
  · intro enc fuel s0
    obtain ⟨d, L, hlog, heq⟩ := run_linear_shape enc fuel s0
    rw [heq]
    simp only [List.append_assoc, List.drop_left]
    intro e he
    simp only [List.mem_append, List.mem_map, List.mem_cons, List.not_mem_nil, or_false] at he
    rcases he with ⟨_, _, rfl⟩ | (rfl | rfl) | he | (rfl | rfl) | ⟨_, _, rfl⟩ <;>
      first
        | exact trivial
        | exact ⟨rfl, rfl, rfl⟩
        | · obtain ⟨tc, rfl⟩ := hlog _ he
            exact trivial
  · intro holdTicks w s0
    rw [run_angular_eq]
    simp only [List.append_assoc, List.drop_left]
    intro e he
    simp only [List.mem_append, List.mem_map, List.mem_cons, List.not_mem_nil, or_false] at he
    rcases he with ⟨_, _, rfl⟩ | (rfl | rfl) | ⟨_, _, rfl⟩ | (rfl | rfl) | ⟨_, _, rfl⟩ <;>
      first
        | exact trivial
        | exact ⟨rfl, rfl, rfl⟩
  · intro holdTicks w s0
    rw [run_static_turn_eq]
    simp only [List.append_assoc, List.drop_left]
    intro e he
    simp only [List.mem_append, List.mem_map, List.mem_cons, List.not_mem_nil, or_false] at he
    rcases he with ⟨_, _, rfl⟩ | (rfl | rfl) | ⟨_, _, rfl⟩ | (rfl | rfl) | ⟨_, _, rfl⟩ <;>
      first
        | exact trivial
        | exact ⟨rfl, rfl, rfl⟩
  · intro encStart encF mts off fuel s0
    obtain ⟨L, hlog, heq⟩ := run_front_shape encStart encF mts off fuel s0
    rw [heq]
    simp only [List.append_assoc, List.drop_left]
    intro e he
    simp only [List.mem_append, List.mem_map, List.mem_cons, List.not_mem_nil, or_false] at he
    rcases he with (rfl | rfl) | he | (rfl | rfl) | ⟨_, _, rfl⟩ <;>
      first
        | exact trivial
        | exact ⟨rfl, rfl, rfl⟩
        | · obtain ⟨tc, rfl⟩ := hlog _ he
            exact trivial
  · intro cells s0
    rw [run_micrometers_eq]
    simp only [List.append_assoc, List.drop_left]

/-- C10: in the linear, angular and static-turn profiles, no nonzero target
speed is commanded before the initial stationary logging period completes:
each procedure's trace starts with 100 log samples at ticks
`s0.tick, s0.tick + 10, ..., s0.tick + 990` (1000 ticks at a 10-tick
interval, with motor control already enabled), and every speed command with
a nonzero value is issued at tick `s0.tick + 1000` or later. -/
theorem stationary_prelog_before_motion :
    (∀ (enc : Nat → Int) (fuel : Nat) (s0 : St),
        ((run_linear_speed_profile enc fuel s0).events.drop s0.events.length).take 100 =
          (List.range 100).map (fun j => Ev.log LogKind.linearSpeed (s0.tick + j * 10)) ∧
        ∀ e ∈ (run_linear_speed_profile enc fuel s0).events.drop s0.events.length,
          cmdAfter (s0.tick + 1000) e) ∧
    (∀ (holdTicks : Nat) (w : ℚ) (s0 : St),
        ((run_angular_speed_profile holdTicks w s0).events.drop s0.events.length).take 100 =
          (List.range 100).map (fun j => Ev.log LogKind.angularSpeed (s0.tick + j * 10)) ∧
        ∀ e ∈ (run_angular_speed_profile holdTicks w s0).events.drop s0.events.length,
          cmdAfter (s0.tick + 1000) e) ∧
    (∀ (holdTicks : Nat) (w : ℚ) (s0 : St),
        ((run_static_turn_right_profile holdTicks w s0).events.drop s0.events.length).take 100 =
          (List.range 100).map (fun j => Ev.log LogKind.angularSpeed (s0.tick + j * 10)) ∧
        ∀ e ∈ (run_static_turn_right_profile holdTicks w s0).events.drop s0.events.length,
          cmdAfter (s0.tick + 1000) e) := by
  have hpreL : ∀ t : Nat, (eachTicks 10 1000 t).map (Ev.log LogKind.linearSpeed) =
      (List.range 100).map (fun j => Ev.log LogKind.linearSpeed (t + j * 10)) := by
    intro t
    simp [eachTicks, List.map_map, Function.comp]
  have hpreA : ∀ t : Nat, (eachTicks 10 1000 t).map (Ev.log LogKind.angularSpeed) =
      (List.range 100).map (fun j => Ev.log LogKind.angularSpeed (t + j * 10)) := by
    intro t
    simp [eachTicks, List.map_map, Function.comp]
  refine ⟨?_, ?_, ?_⟩
  · intro enc fuel s0
    obtain ⟨d, L, hlog, heq⟩ := run_linear_shape enc fuel s0
    rw [heq]
    simp only [List.append_assoc, List.drop_left]
    constructor
    · rw [hpreL s0.tick, List.take_left' (by simp)]
    · intro e he
      simp only [List.mem_append, List.mem_map, List.mem_cons, List.not_mem_nil, or_false] at he
      rcases he with ⟨_, _, rfl⟩ | (rfl | rfl) | he | (rfl | rfl) | ⟨_, _, rfl⟩ <;>
        first
          | exact trivial
          | exact fun h => absurd rfl h
          | exact fun _ => Nat.le_refl _
          | exact fun _ => Nat.le_add_right _ _
          | · obtain ⟨tc, rfl⟩ := hlog _ he
              exact trivial
  · intro holdTicks w s0
    rw [run_angular_eq]
    simp only [List.append_assoc, List.drop_left]
    constructor
    · rw [hpreA s0.tick, List.take_left' (by simp)]
    · intro e he
      simp only [List.mem_append, List.mem_map, List.mem_cons, List.not_mem_nil, or_false] at he
      rcases he with ⟨_, _, rfl⟩ | (rfl | rfl) | ⟨_, _, rfl⟩ | (rfl | rfl) | ⟨_, _, rfl⟩ <;>
        first
          | exact trivial
          | exact fun h => absurd rfl h
          | exact fun _ => Nat.le_refl _
  · intro holdTicks w s0
    rw [run_static_turn_eq]
    simp only [List.append_assoc, List.drop_left]
    constructor
    · rw [hpreA s0.tick, List.take_left' (by simp)]
    · intro e he
      simp only [List.mem_append, List.mem_map, List.mem_cons, List.not_mem_nil, or_false] at he
      rcases he with ⟨_, _, rfl⟩ | (rfl | rfl) | ⟨_, _, rfl⟩ | (rfl | rfl) | ⟨_, _, rfl⟩ <;>
        first
          | exact trivial
          | exact fun h => absurd rfl h
          | exact fun _ => Nat.le_refl _
